import Mathlib

/-!
Shallow embedding of yapic_io/minibatch.py (class Minibatch).

Modelling conventions:
- numpy arrays are modelled by `NpArr`: a shape (list of dimension sizes)
  together with flat integer data.  `np.array` applied to a list of arrays is
  modelled by `npArray`: it stacks equal-shaped arrays along a new leading
  axis and fails on inhomogeneous shapes.
- The process-wide random source (`random.uniform`) is modelled by a stream
  `rng : Nat → ℚ` of raw draws in [0,1] together with an explicit cursor
  `idx : Nat`; `random.uniform(a, b)` is `uniform a b (rng idx)` and advances
  the cursor by one.
- The dataset object is a record of its observable surface:
  `get_channels`, `get_label_values` and `pick_random_training_template`.
  The latter may raise, modelled by `Except String`.
- Raised exceptions are modelled by `Except`; since a Python exception leaves
  `self` holding whatever mutations already happened, the error case of
  `fetchMinibatchData` carries the (possibly partially updated) object state.
-/

/-- A numpy array: its shape and flat data. -/
structure NpArr where
  shape : List Nat
  data : List Int
deriving DecidableEq

/-- The keyword/positional arguments of one call to
`dataset.pick_random_training_template`. -/
structure TplRequest where
  size_zxy : Nat × Nat × Nat
  channels : List Nat
  pixel_padding : Nat × Nat × Nat
  equalized : Bool
  labels : List Nat
  rotation_angle : Option ℚ
  shear_angle : Option ℚ
deriving DecidableEq

/-- The augmentation record attached to a returned template (opaque to
`Minibatch`; it only stores and forwards it). -/
abbrev Aug := Option (ℚ × ℚ)

/-- The value returned by `dataset.pick_random_training_template`:
pixels, weights and the applied augmentation record. -/
structure TplData where
  pixels : NpArr
  weights : NpArr
  augmentation : Aug
deriving DecidableEq

/-- The dataset object, reduced to the surface `Minibatch` consumes. -/
structure Dataset where
  get_channels : List Nat
  get_label_values : List Nat
  pick_random_training_template : TplRequest → Except String TplData

/-- The mutable state of a `Minibatch` object, field for field as assigned in
`Minibatch.__init__`.  `pixels`/`weights` start as `None` (`none`); the
`augmentations` attribute does not exist before the first `_fetch_minibatch_data`
completes, modelled by an `Option`. -/
structure Minibatch where
  dataset : Dataset
  padding_zxy : Nat × Nat × Nat
  size_zxy : Nat × Nat × Nat
  channels : List Nat
  labels : List Nat
  batch_size : Nat
  equalized : Bool
  augment : Bool
  rotation_range : ℚ × ℚ
  shear_range : ℚ × ℚ
  pixels : Option NpArr
  weights : Option NpArr
  augmentations : Option (List Aug)

/-- `random.uniform(a, b) = a + (b - a) * random()` where `random()` is the
raw draw `u` in [0, 1]. -/
def uniform (a b u : ℚ) : ℚ := a + (b - a) * u

/-- `Minibatch._get_random_rotation`, with the raw draw made explicit. -/
def get_random_rotation (m : Minibatch) (u : ℚ) : ℚ :=
  uniform m.rotation_range.1 m.rotation_range.2 u

/-- `Minibatch._get_random_shear`, with the raw draw made explicit. -/
def get_random_shear (m : Minibatch) (u : ℚ) : ℚ :=
  uniform m.shear_range.1 m.shear_range.2 u

/-- The request built by `Minibatch._pick_random_tpl`, and the new position of
the random cursor.  Without augmentation no angles are passed and no draw is
consumed; with augmentation the shear angle is drawn first, then the rotation
angle. -/
def pickRequest (m : Minibatch) (rng : Nat → ℚ) (idx : Nat) : TplRequest × Nat :=
  if m.augment then
    let shear_angle := get_random_shear m (rng idx)
    let rotation_angle := get_random_rotation m (rng (idx + 1))
    (⟨m.size_zxy, m.channels, m.padding_zxy, m.equalized, m.labels,
      some rotation_angle, some shear_angle⟩, idx + 2)
  else
    (⟨m.size_zxy, m.channels, m.padding_zxy, m.equalized, m.labels,
      none, none⟩, idx)

/-- `Minibatch._pick_random_tpl`: build the request and forward it to the
dataset.  Also returns the request itself (ghost observation) and the new
random cursor. -/
def pick_random_tpl (m : Minibatch) (rng : Nat → ℚ) (idx : Nat) :
    Except String TplData × TplRequest × Nat :=
  (m.dataset.pick_random_training_template (pickRequest m rng idx).1,
   pickRequest m rng idx)

/-- Successful outcome of the fetch loop: the per-example pixel, weight and
augmentation lists, the list of requests made, and the random cursor. -/
abbrev LoopOk := List NpArr × List NpArr × List Aug × List TplRequest × Nat

/-- Failing outcome of the fetch loop: the raised error, the requests made up
to and including the failing one, and the random cursor. -/
abbrev LoopErr := String × List TplRequest × Nat

/-- The `for i in range(batch_size)` loop of `Minibatch._fetch_minibatch_data`:
`n` iterations remain, the random cursor is at `idx`.  A dataset error aborts
the loop and propagates verbatim. -/
def fetchLoop (m : Minibatch) (rng : Nat → ℚ) : Nat → Nat → Except LoopErr LoopOk
  | 0, idx => .ok ([], [], [], [], idx)
  | n + 1, idx =>
    let pr := pick_random_tpl m rng idx
    match pr.1 with
    | .error e => .error (e, [pr.2.1], pr.2.2)
    | .ok t =>
      match fetchLoop m rng n pr.2.2 with
      | .error (e, reqs, idx2) => .error (e, pr.2.1 :: reqs, idx2)
      | .ok (pxs, wts, augs, reqs, idx2) =>
        .ok (t.pixels :: pxs, t.weights :: wts, t.augmentation :: augs,
             pr.2.1 :: reqs, idx2)

/-- The error message of a failed stack. -/
def inhomogeneousError : String := "inhomogeneous shape"

/-- `np.array` applied to a list of arrays: the empty list yields the empty
array of shape (0,); a list of equal-shaped arrays is stacked along a new
leading axis; inhomogeneous shapes raise. -/
def npArray (xs : List NpArr) : Except String NpArr :=
  match xs with
  | [] => .ok ⟨[0], []⟩
  | x :: rest =>
    if rest.all (fun y => y.shape == x.shape) then
      .ok ⟨xs.length :: x.shape, (xs.map (fun a => a.data)).flatten⟩
    else
      .error inhomogeneousError

/-- `Minibatch._fetch_minibatch_data`.  The three batch fields are assigned
sequentially (`self.pixels`, then `self.weights`, then `self.augmentations`),
so an exception raised by the second stack leaves `pixels` already replaced.
The error case carries the object state as the exception propagates. -/
def fetchMinibatchData (m : Minibatch) (rng : Nat → ℚ) (idx : Nat) :
    Except (String × Minibatch × Nat) (Minibatch × Nat) :=
  match fetchLoop m rng m.batch_size idx with
  | .error (e, _, idx2) => .error (e, m, idx2)
  | .ok (pixels, weights, augmentations, _, idx2) =>
    match npArray pixels with
    | .error e => .error (e, m, idx2)
    | .ok parr =>
      match npArray weights with
      | .error e => .error (e, { m with pixels := some parr }, idx2)
      | .ok warr =>
        .ok ({ m with
                pixels := some parr
                weights := some warr
                augmentations := some augmentations }, idx2)

/-- The list of requests a run of the fetch loop sends to the dataset,
whether the run succeeds or fails. -/
def loopRequests (r : Except LoopErr LoopOk) : List TplRequest :=
  match r with
  | .error (_, reqs, _) => reqs
  | .ok (_, _, _, reqs, _) => reqs

/-- The list of requests one `_fetch_minibatch_data` call sends to the
dataset. -/
def fetchRequests (m : Minibatch) (rng : Nat → ℚ) (idx : Nat) : List TplRequest :=
  loopRequests (fetchLoop m rng m.batch_size idx)

/-- The object state built by `Minibatch.__init__` just before it calls
`self._fetch_minibatch_data()`: channels and labels are fetched from the
dataset, `pixels` and `weights` are `None`. -/
def initState (dataset : Dataset) (batch_size : Nat)
    (size_zxy padding_zxy : Nat × Nat × Nat) (augment : Bool)
    (rotation_range shear_range : ℚ × ℚ) (equalized : Bool) : Minibatch :=
  { dataset := dataset
    padding_zxy := padding_zxy
    size_zxy := size_zxy
    channels := dataset.get_channels
    labels := dataset.get_label_values
    batch_size := batch_size
    equalized := equalized
    augment := augment
    rotation_range := rotation_range
    shear_range := shear_range
    pixels := none
    weights := none
    augmentations := none }

/-- `Minibatch.__init__`: build the state, then perform one full batch
fetch. -/
def Minibatch.init (dataset : Dataset) (batch_size : Nat)
    (size_zxy padding_zxy : Nat × Nat × Nat) (augment : Bool)
    (rotation_range shear_range : ℚ × ℚ) (equalized : Bool)
    (rng : Nat → ℚ) (idx : Nat) : Except (String × Minibatch × Nat) (Minibatch × Nat) :=
  fetchMinibatchData
    (initState dataset batch_size size_zxy padding_zxy augment
      rotation_range shear_range equalized) rng idx

/-- `Minibatch.__next__`: fetch one batch and return the (mutated) sampler
itself. -/
def Minibatch.next (m : Minibatch) (rng : Nat → ℚ) (idx : Nat) :
    Except (String × Minibatch × Nat) (Minibatch × Nat) :=
  fetchMinibatchData m rng idx

/-- The leading-dimension invariant of claim C1: both batch arrays exist and
have leading dimension `bs`, and the augmentation sequence has length `bs`. -/
def leadOk (m : Minibatch) (bs : Nat) : Prop :=
  (∃ p, m.pixels = some p ∧ p.shape.head? = some bs) ∧
  (∃ w, m.weights = some w ∧ w.shape.head? = some bs) ∧
  (∃ l, m.augmentations = some l ∧ l.length = bs)

/-! ### Concrete datasets, streams and states used by witnesses -/

/-- The three batch fields of a sampler: its observable batch. -/
def batchObs (m : Minibatch) : Option NpArr × Option NpArr × Option (List Aug) :=
  (m.pixels, m.weights, m.augmentations)

/-- A dataset whose every response has pixel shape [1] and weight shape [1]. -/
def wDataset : Dataset :=
  ⟨[0], [0], fun _ => .ok ⟨⟨[1], [5]⟩, ⟨[1], [7]⟩, none⟩⟩

/-- A raw-draw stream, constantly 1/2. -/
def wRng : Nat → ℚ := fun _ => 1 / 2

/-- An unaugmented sampler over `wDataset` with batch size 1. -/
def wM : Minibatch :=
  initState wDataset 1 (1, 1, 1) (0, 2, 2) false (0, 0) (0, 0) false

/-- The single request `wM` sends per advance. -/
def wReq : TplRequest := ⟨(1, 1, 1), [0], (0, 2, 2), false, [0], none, none⟩

/-- The state of `wM` after one successful advance. -/
def wMres : Minibatch :=
  { wM with
      pixels := some ⟨[1, 1], [5]⟩
      weights := some ⟨[1, 1], [7]⟩
      augmentations := some [none] }

/-- An augmented sampler over `wDataset` with degenerate angle ranges. -/
def wM3 : Minibatch :=
  initState wDataset 1 (1, 1, 1) (0, 0, 0) true (0, 0) (0, 0) false

/-- The single request `wM3` sends per advance; both angle terms evaluate to
exactly 0. -/
def wReq3 : TplRequest :=
  ⟨(1, 1, 1), [0], (0, 0, 0), false, [0],
   some (uniform 0 0 (wRng 1)), some (uniform 0 0 (wRng 0))⟩

/-- A dataset agreeing with `wDataset` on unequalized requests but failing on
equalized ones. -/
def wDataset2 : Dataset :=
  ⟨[0], [0], fun req =>
    if req.equalized then .error "equalized sampling failed"
    else .ok ⟨⟨[1], [5]⟩, ⟨[1], [7]⟩, none⟩⟩

/-- A dataset that always fails to find a valid sampling location. -/
def errDataset : Dataset :=
  ⟨[0], [0], fun _ => .error "no valid location found"⟩

/-- An unaugmented sampler over `errDataset` with batch size 1. -/
def errM : Minibatch :=
  initState errDataset 1 (1, 1, 1) (0, 0, 0) false (0, 0) (0, 0) false

/-- A dataset with uniform pixel shapes but a weight shape depending on the
requested shear angle: exhibits a weight-stacking failure. -/
def raggedDataset : Dataset :=
  ⟨[0], [0], fun req =>
    .ok ⟨⟨[1], [5]⟩,
         if req.shear_angle = some 0 then ⟨[1], [7]⟩ else ⟨[2], [7, 8]⟩,
         none⟩⟩

/-- A raw-draw stream: position k yields k/4. -/
def quarterRng : Nat → ℚ := fun k => (k : ℚ) / 4

/-- An augmented sampler over `raggedDataset`, shear range (0, 1), rotation
range (0, 0), batch size 2. -/
def raggedM : Minibatch :=
  initState raggedDataset 2 (1, 1, 1) (0, 0, 0) true (0, 0) (0, 1) false

/-- An unaugmented sampler over `wDataset` with batch size 2. -/
def c1m : Minibatch :=
  initState wDataset 2 (1, 1, 1) (0, 2, 2) false (0, 0) (0, 0) false

/-- The state of `c1m` after one successful batch fetch. -/
def c1res : Minibatch :=
  { c1m with
      pixels := some ⟨[2, 1], [5, 5]⟩
      weights := some ⟨[2, 1], [7, 7]⟩
      augmentations := some [none, none] }

/-- An unaugmented sampler over `wDataset` with batch size 0. -/
def zM : Minibatch :=
  initState wDataset 0 (1, 1, 1) (0, 0, 0) false (0, 0) (0, 0) false

/-! ### Basic lemmas about the fetch loop -/

lemma pick_random_tpl_eq (m : Minibatch) (rng : Nat → ℚ) (idx : Nat) :
    pick_random_tpl m rng idx =
      (m.dataset.pick_random_training_template (pickRequest m rng idx).1,
       (pickRequest m rng idx).1, (pickRequest m rng idx).2) := rfl

lemma fetchLoop_zero (m : Minibatch) (rng : Nat → ℚ) (idx : Nat) :
    fetchLoop m rng 0 idx = .ok ([], [], [], [], idx) := rfl

lemma fetchLoop_succ (m : Minibatch) (rng : Nat → ℚ) (n idx : Nat) :
    fetchLoop m rng (n + 1) idx =
      match m.dataset.pick_random_training_template (pickRequest m rng idx).1 with
      | .error e => .error (e, [(pickRequest m rng idx).1], (pickRequest m rng idx).2)
      | .ok t =>
        match fetchLoop m rng n (pickRequest m rng idx).2 with
        | .error (e, reqs, idx2) => .error (e, (pickRequest m rng idx).1 :: reqs, idx2)
        | .ok (pxs, wts, augs, reqs, idx2) =>
          .ok (t.pixels :: pxs, t.weights :: wts, t.augmentation :: augs,
               (pickRequest m rng idx).1 :: reqs, idx2) := rfl

lemma fetchLoop_ok_lengths (m : Minibatch) (rng : Nat → ℚ) :
    ∀ n idx pxs wts augs reqs idx2,
      fetchLoop m rng n idx = .ok (pxs, wts, augs, reqs, idx2) →
      pxs.length = n ∧ wts.length = n ∧ augs.length = n ∧ reqs.length = n := by
  intro n
  induction n with
  | zero =>
    intro idx pxs wts augs reqs idx2 h
    rw [fetchLoop_zero] at h
    cases h
    simp
  | succ n ih =>
    intro idx pxs wts augs reqs idx2 h
    rw [fetchLoop_succ] at h
    split at h
    · cases h
    · rename_i t ht
      split at h
      · cases h
      · rename_i pxs1 wts1 augs1 reqs1 idx3 hrec
        cases h
        obtain ⟨h1, h2, h3, h4⟩ := ih _ _ _ _ _ _ hrec
        simp [h1, h2, h3, h4]

lemma loopRequests_mem (m : Minibatch) (rng : Nat → ℚ) :
    ∀ n idx req, req ∈ loopRequests (fetchLoop m rng n idx) →
      ∃ j, req = (pickRequest m rng j).1 := by
  intro n
  induction n with
  | zero =>
    intro idx req h
    simp [fetchLoop_zero, loopRequests] at h
  | succ n ih =>
    intro idx req h
    rw [fetchLoop_succ] at h
    split at h
    · simp [loopRequests] at h
      exact ⟨idx, h⟩
    · split at h
      · rename_i e reqs idx2 hrec
        simp only [loopRequests, List.mem_cons] at h
        rcases h with h | h
        · exact ⟨idx, h⟩
        · exact ih _ req (by rw [hrec]; simpa [loopRequests] using h)
      · rename_i pxs wts augs reqs idx2 hrec
        simp only [loopRequests, List.mem_cons] at h
        rcases h with h | h
        · exact ⟨idx, h⟩
        · exact ih _ req (by rw [hrec]; simpa [loopRequests] using h)

lemma loopRequests_getElem (m : Minibatch) (rng : Nat → ℚ)
    (haug : m.augment = true) :
    ∀ n idx i req, (loopRequests (fetchLoop m rng n idx))[i]? = some req →
      req = (pickRequest m rng (idx + 2 * i)).1 := by
  intro n
  induction n with
  | zero =>
    intro idx i req h
    simp [fetchLoop_zero, loopRequests] at h
  | succ n ih =>
    intro idx i req h
    have hcur : (pickRequest m rng idx).2 = idx + 2 := by
      simp [pickRequest, haug]
    rw [fetchLoop_succ] at h
    split at h
    · simp only [loopRequests] at h
      rcases i with _ | j
      · simp at h
        simp [h]
      · simp at h
    · split at h
      · rename_i e reqs idx2 hrec
        simp only [loopRequests] at h
        rcases i with _ | j
        · simp at h
          simp [h]
        · simp only [List.getElem?_cons_succ] at h
          have := ih _ j req (by rw [hrec]; simpa [loopRequests] using h)
          rw [this, hcur]
          ring_nf
      · rename_i pxs wts augs reqs idx2 hrec
        simp only [loopRequests] at h
        rcases i with _ | j
        · simp at h
          simp [h]
        · simp only [List.getElem?_cons_succ] at h
          have := ih _ j req (by rw [hrec]; simpa [loopRequests] using h)
          rw [this, hcur]
          ring_nf

lemma npArray_ok_head (xs : List NpArr) (n : Nat) (s : List Nat)
    (hlen : xs.length = n) (hsh : ∀ a ∈ xs, a.shape = s) :
    ∃ r, npArray xs = .ok r ∧ r.shape.head? = some n := by
  cases xs with
  | nil =>
    refine ⟨⟨[0], []⟩, rfl, ?_⟩
    simp at hlen
    simp [hlen]
  | cons x rest =>
    have hall : rest.all (fun y => y.shape == x.shape) = true := by
      rw [List.all_eq_true]
      intro y hy
      have h1 : y.shape = s := hsh y (List.mem_cons_of_mem _ hy)
      have h2 : x.shape = s := hsh x (List.mem_cons_self _ _)
      simp [h1, h2]
    refine ⟨⟨(x :: rest).length :: x.shape, ((x :: rest).map (fun a => a.data)).flatten⟩, ?_, ?_⟩
    · simp [npArray, hall]
    · simp [hlen]

lemma npArray_error_eq (xs : List NpArr) (e : String)
    (h : npArray xs = .error e) : e = inhomogeneousError := by
  cases xs with
  | nil => simp [npArray] at h
  | cons x rest =>
    simp only [npArray] at h
    split at h
    · cases h
    · cases h
      rfl

lemma uniform_mem (a b u : ℚ) (hab : a ≤ b) (h0 : 0 ≤ u) (h1 : u ≤ 1) :
    a ≤ uniform a b u ∧ uniform a b u ≤ b := by
  unfold uniform
  constructor
  · nlinarith
  · nlinarith

lemma uniform_degenerate (a u : ℚ) : uniform a a u = a := by
  simp [uniform]

lemma fetchLoop_ok_uniform (m : Minibatch) (rng : Nat → ℚ) (ps ws : List Nat)
    (h : ∀ req, ∃ t, m.dataset.pick_random_training_template req = .ok t ∧
      t.pixels.shape = ps ∧ t.weights.shape = ws) :
    ∀ n idx, ∃ pxs wts augs reqs idx2,
      fetchLoop m rng n idx = .ok (pxs, wts, augs, reqs, idx2) ∧
      pxs.length = n ∧ wts.length = n ∧ augs.length = n ∧
      (∀ a ∈ pxs, a.shape = ps) ∧ (∀ a ∈ wts, a.shape = ws) := by
  intro n
  induction n with
  | zero =>
    intro idx
    exact ⟨[], [], [], [], idx, rfl, rfl, rfl, rfl, by simp, by simp⟩
  | succ n ih =>
    intro idx
    obtain ⟨t, ht, hp, hw⟩ := h (pickRequest m rng idx).1
    obtain ⟨pxs, wts, augs, reqs, idx2, hrec, h1, h2, h3, h4, h5⟩ :=
      ih (pickRequest m rng idx).2
    refine ⟨t.pixels :: pxs, t.weights :: wts, t.augmentation :: augs,
      (pickRequest m rng idx).1 :: reqs, idx2, ?_, by simp [h1], by simp [h2],
      by simp [h3], ?_, ?_⟩
    · rw [fetchLoop_succ, ht, hrec]
    · intro a ha
      rcases List.mem_cons.mp ha with ha | ha
      · rw [ha]; exact hp
      · exact h4 a ha
    · intro a ha
      rcases List.mem_cons.mp ha with ha | ha
      · rw [ha]; exact hw
      · exact h5 a ha

lemma fetch_ok_uniform (m : Minibatch) (rng : Nat → ℚ) (ps ws : List Nat)
    (h : ∀ req, ∃ t, m.dataset.pick_random_training_template req = .ok t ∧
      t.pixels.shape = ps ∧ t.weights.shape = ws) (idx : Nat) :
    ∃ m1 idx1, fetchMinibatchData m rng idx = .ok (m1, idx1) ∧
      leadOk m1 m.batch_size := by
  obtain ⟨pxs, wts, augs, reqs, idx2, hloop, h1, h2, h3, h4, h5⟩ :=
    fetchLoop_ok_uniform m rng ps ws h m.batch_size idx
  obtain ⟨parr, hparr, hphead⟩ := npArray_ok_head pxs m.batch_size ps h1 h4
  obtain ⟨warr, hwarr, hwhead⟩ := npArray_ok_head wts m.batch_size ws h2 h5
  refine ⟨{ m with
             pixels := some parr
             weights := some warr
             augmentations := some augs }, idx2, ?_, ?_⟩
  · simp only [fetchMinibatchData, hloop, hparr, hwarr]
  · exact ⟨⟨parr, rfl, hphead⟩, ⟨warr, rfl, hwhead⟩, ⟨augs, rfl, h3⟩⟩

lemma fetchLoop_lockstep (m : Minibatch) (rng : Nat → ℚ) :
    ∀ n idx pxs wts augs reqs idx2,
      fetchLoop m rng n idx = .ok (pxs, wts, augs, reqs, idx2) →
      ∀ (i : Nat) (req : TplRequest), reqs[i]? = some req →
        ∃ t, m.dataset.pick_random_training_template req = .ok t ∧
          pxs[i]? = some t.pixels ∧ wts[i]? = some t.weights ∧
          augs[i]? = some t.augmentation := by
  intro n
  induction n with
  | zero =>
    intro idx pxs wts augs reqs idx2 h i req hi
    rw [fetchLoop_zero] at h
    cases h
    simp at hi
  | succ n ih =>
    intro idx pxs wts augs reqs idx2 h i req hi
    rw [fetchLoop_succ] at h
    split at h
    · cases h
    · rename_i t ht
      split at h
      · cases h
      · rename_i pxs1 wts1 augs1 reqs1 idx3 hrec
        cases h
        rcases i with _ | j
        · simp only [List.getElem?_cons_zero, Option.some.injEq] at hi
          subst hi
          exact ⟨t, ht, by simp, by simp, by simp⟩
        · simp only [List.getElem?_cons_succ] at hi ⊢
          exact ih _ _ _ _ _ _ hrec j req hi

lemma fetchLoop_error_spec (m : Minibatch) (rng : Nat → ℚ) :
    ∀ n idx e reqs idx2, fetchLoop m rng n idx = .error (e, reqs, idx2) →
      ∃ req, req ∈ reqs ∧
        m.dataset.pick_random_training_template req = .error e := by
  intro n
  induction n with
  | zero =>
    intro idx e reqs idx2 h
    rw [fetchLoop_zero] at h
    cases h
  | succ n ih =>
    intro idx e reqs idx2 h
    rw [fetchLoop_succ] at h
    split at h
    · rename_i e1 he
      cases h
      exact ⟨(pickRequest m rng idx).1, by simp, he⟩
    · rename_i t ht
      split at h
      · rename_i e1 reqs1 idx3 hrec
        cases h
        obtain ⟨req, hmem, herr⟩ := ih _ _ _ _ hrec
        exact ⟨req, List.mem_cons_of_mem _ hmem, herr⟩
      · cases h

lemma head_req_mem (m : Minibatch) (rng : Nat → ℚ) (n idx : Nat) :
    (pickRequest m rng idx).1 ∈ loopRequests (fetchLoop m rng (n + 1) idx) := by
  rw [fetchLoop_succ]
  split
  · simp [loopRequests]
  · split <;> simp [loopRequests]

lemma loopRequests_succ_ok (m : Minibatch) (rng : Nat → ℚ) (n idx : Nat)
    (t : TplData)
    (ht : m.dataset.pick_random_training_template (pickRequest m rng idx).1 =
      .ok t) :
    loopRequests (fetchLoop m rng (n + 1) idx) =
      (pickRequest m rng idx).1 ::
        loopRequests (fetchLoop m rng n (pickRequest m rng idx).2) := by
  rw [fetchLoop_succ, ht]
  rcases fetchLoop m rng n (pickRequest m rng idx).2 with ⟨e, reqs, i2⟩ | ⟨pxs, wts, augs, reqs, i2⟩ <;>
    simp [loopRequests]

lemma fetchLoop_congr (m : Minibatch) (d2 : Dataset) (rng : Nat → ℚ) :
    ∀ n idx,
      (∀ req ∈ loopRequests (fetchLoop m rng n idx),
        d2.pick_random_training_template req =
          m.dataset.pick_random_training_template req) →
      fetchLoop { m with dataset := d2 } rng n idx = fetchLoop m rng n idx := by
  intro n
  induction n with
  | zero => intro idx h; rfl
  | succ n ih =>
    intro idx h
    have hhead := h _ (head_req_mem m rng n idx)
    have hL : fetchLoop { m with dataset := d2 } rng (n + 1) idx =
        match d2.pick_random_training_template (pickRequest m rng idx).1 with
        | .error e => .error (e, [(pickRequest m rng idx).1], (pickRequest m rng idx).2)
        | .ok t =>
          match fetchLoop { m with dataset := d2 } rng n (pickRequest m rng idx).2 with
          | .error (e, reqs, idx2) =>
            .error (e, (pickRequest m rng idx).1 :: reqs, idx2)
          | .ok (pxs, wts, augs, reqs, idx2) =>
            .ok (t.pixels :: pxs, t.weights :: wts, t.augmentation :: augs,
                 (pickRequest m rng idx).1 :: reqs, idx2) :=
      fetchLoop_succ { m with dataset := d2 } rng n idx
    rw [hL, fetchLoop_succ, hhead]
    rcases ht : m.dataset.pick_random_training_template (pickRequest m rng idx).1 with e | t
    · rfl
    · have hrec : fetchLoop { m with dataset := d2 } rng n (pickRequest m rng idx).2 =
          fetchLoop m rng n (pickRequest m rng idx).2 := by
        refine ih _ ?_
        intro req hreq
        refine h req ?_
        rw [loopRequests_succ_ok m rng n idx t ht]
        exact List.mem_cons_of_mem _ hreq
      rw [hrec]

lemma npArray_ok_headlen (xs : List NpArr) (r : NpArr)
    (h : npArray xs = .ok r) : r.shape.head? = some xs.length := by
  cases xs with
  | nil =>
    simp only [npArray] at h
    cases h
    rfl
  | cons x rest =>
    simp only [npArray] at h
    split at h
    · cases h
      simp
    · cases h

lemma fetch_swap (m : Minibatch) (d2 : Dataset) (rng : Nat → ℚ) (idx : Nat)
    (h : ∀ req ∈ fetchRequests m rng idx,
      d2.pick_random_training_template req =
        m.dataset.pick_random_training_template req) :
    fetchMinibatchData { m with dataset := d2 } rng idx =
      match fetchMinibatchData m rng idx with
      | .error (e, m1, i1) => .error (e, { m1 with dataset := d2 }, i1)
      | .ok (m1, i1) => .ok ({ m1 with dataset := d2 }, i1) := by
  have hloop := fetchLoop_congr m d2 rng m.batch_size idx h
  unfold fetchMinibatchData
  dsimp only
  rw [hloop]
  rcases hE : fetchLoop m rng m.batch_size idx with ⟨e, reqs, i2⟩ | ⟨pxs, wts, augs, reqs, i2⟩
  · rfl
  · rcases hp : npArray pxs with e | parr
    · simp only [hp]
    · rcases hw : npArray wts with e2 | warr <;> simp only [hp, hw]

lemma ragged_run :
    Minibatch.next raggedM quarterRng 0 =
      .error (inhomogeneousError,
        { raggedM with pixels := some ⟨[2, 1], [5, 5]⟩ }, 4) := by
  have hs0 : (pickRequest raggedM quarterRng 0).1.shear_angle = some 0 := by
    rw [show (pickRequest raggedM quarterRng 0).1.shear_angle =
        some (uniform 0 1 (quarterRng 0)) from rfl]
    norm_num [uniform, quarterRng]
  have hs2 : (pickRequest raggedM quarterRng 2).1.shear_angle ≠ some 0 := by
    rw [show (pickRequest raggedM quarterRng 2).1.shear_angle =
        some (uniform 0 1 (quarterRng 2)) from rfl]
    norm_num [uniform, quarterRng]
  have hr0 : raggedM.dataset.pick_random_training_template
      (pickRequest raggedM quarterRng 0).1 =
      .ok ⟨⟨[1], [5]⟩, ⟨[1], [7]⟩, none⟩ := by
    rw [show raggedM.dataset.pick_random_training_template
          (pickRequest raggedM quarterRng 0).1 =
        Except.ok ⟨⟨[1], [5]⟩,
          if (pickRequest raggedM quarterRng 0).1.shear_angle = some 0
          then ⟨[1], [7]⟩ else ⟨[2], [7, 8]⟩, none⟩ from rfl, if_pos hs0]
  have hr2 : raggedM.dataset.pick_random_training_template
      (pickRequest raggedM quarterRng 2).1 =
      .ok ⟨⟨[1], [5]⟩, ⟨[2], [7, 8]⟩, none⟩ := by
    rw [show raggedM.dataset.pick_random_training_template
          (pickRequest raggedM quarterRng 2).1 =
        Except.ok ⟨⟨[1], [5]⟩,
          if (pickRequest raggedM quarterRng 2).1.shear_angle = some 0
          then ⟨[1], [7]⟩ else ⟨[2], [7, 8]⟩, none⟩ from rfl, if_neg hs2]
  have hi0 : (pickRequest raggedM quarterRng 0).2 = 2 := rfl
  have hi2 : (pickRequest raggedM quarterRng 2).2 = 4 := rfl
  have hloop2 : fetchLoop raggedM quarterRng 1 2 =
      .ok ([⟨[1], [5]⟩], [⟨[2], [7, 8]⟩], [none],
           [(pickRequest raggedM quarterRng 2).1], 4) := by
    show fetchLoop raggedM quarterRng (0 + 1) 2 = _
    rw [fetchLoop_succ, hr2, hi2, fetchLoop_zero]
  have hloop : fetchLoop raggedM quarterRng 2 0 =
      .ok ([⟨[1], [5]⟩, ⟨[1], [5]⟩], [⟨[1], [7]⟩, ⟨[2], [7, 8]⟩], [none, none],
           [(pickRequest raggedM quarterRng 0).1,
            (pickRequest raggedM quarterRng 2).1], 4) := by
    show fetchLoop raggedM quarterRng (1 + 1) 0 = _
    rw [fetchLoop_succ, hr0, hi0, hloop2]
  show fetchMinibatchData raggedM quarterRng 0 = _
  unfold fetchMinibatchData
  rw [show raggedM.batch_size = 2 from rfl, hloop]
  rfl

/-! ### Claim theorems -/

/-- C1: for every dataset returning uniformly shaped examples, construction
and every advance succeed and leave the pixel batch and the weight batch with
leading dimension `batch_size`, and the augmentation sequence with length
exactly `batch_size`. -/
theorem minibatch_batch_leading_dims (ds : Dataset) (ps ws : List Nat)
    (h : ∀ req, ∃ t, ds.pick_random_training_template req = .ok t ∧
      t.pixels.shape = ps ∧ t.weights.shape = ws)
    (rng : Nat → ℚ) (idx : Nat) :
    (∀ bs sz pad aug rr sr eq, ∃ m1 idx1,
      Minibatch.init ds bs sz pad aug rr sr eq rng idx = .ok (m1, idx1) ∧
        leadOk m1 bs) ∧
    (∀ m : Minibatch, m.dataset = ds →
      ∃ m1 idx1, Minibatch.next m rng idx = .ok (m1, idx1) ∧
        leadOk m1 m.batch_size) := by
  have main : ∀ m : Minibatch, m.dataset = ds →
      ∃ m1 idx1, fetchMinibatchData m rng idx = .ok (m1, idx1) ∧
        leadOk m1 m.batch_size := by
    intro m hds
    refine fetch_ok_uniform m rng ps ws ?_ idx
    rw [hds]
    exact h
  exact ⟨fun bs sz pad aug rr sr eq =>
    main (initState ds bs sz pad aug rr sr eq) rfl, fun m hds => main m hds⟩

/-- Witness for C1: a concrete uniformly shaped dataset, batch size 2. -/
theorem minibatch_batch_leading_dims_witness : leadOk c1res 2 := by
  obtain ⟨m1, idx1, hrun, hlead⟩ :=
    (minibatch_batch_leading_dims wDataset [1] [1]
      (fun req => ⟨⟨⟨[1], [5]⟩, ⟨[1], [7]⟩, none⟩, rfl, rfl, rfl⟩) wRng 0).1
      2 (1, 1, 1) (0, 2, 2) false (0, 0) (0, 0) false
  have hconc : Minibatch.init wDataset 2 (1, 1, 1) (0, 2, 2) false (0, 0) (0, 0)
      false wRng 0 = .ok (c1res, 0) := rfl
  rw [hconc] at hrun
  have h2 : (c1res, 0) = (m1, idx1) := by injection hrun
  rw [show c1res = m1 from congrArg Prod.fst h2]
  exact hlead

/-- C2 counterexample: an advance in which pixel stacking succeeds but weight
stacking fails replaces the `pixels` field while the stacking error
propagates, so the object IS left partially updated. -/
theorem minibatch_stacking_partial_update_cex :
    Minibatch.next raggedM quarterRng 0 =
      .error (inhomogeneousError,
        { raggedM with pixels := some ⟨[2, 1], [5, 5]⟩ }, 4) ∧
    ({ raggedM with pixels := some ⟨[2, 1], [5, 5]⟩ } : Minibatch).pixels ≠
      raggedM.pixels := by
  refine ⟨ragged_run, ?_⟩
  rw [show ({ raggedM with pixels := some ⟨[2, 1], [5, 5]⟩ } : Minibatch).pixels =
      some ⟨[2, 1], [5, 5]⟩ from rfl, show raggedM.pixels = none from rfl]
  simp

/-- C2 (amended): a failing advance always leaves the weight batch and the
augmentation sequence unchanged; the pixel batch is unchanged unless the
failure occurred while stacking the weight arrays, in which case `pixels`
already holds the newly stacked pixel batch with leading dimension
`batch_size`. -/
theorem minibatch_error_preserves_weights (m : Minibatch) (rng : Nat → ℚ)
    (idx : Nat) (e : String) (m1 : Minibatch) (idx1 : Nat)
    (h : Minibatch.next m rng idx = .error (e, m1, idx1)) :
    m1.weights = m.weights ∧ m1.augmentations = m.augmentations ∧
      (m1.pixels = m.pixels ∨
        (e = inhomogeneousError ∧
          ∃ p, m1.pixels = some p ∧ p.shape.head? = some m.batch_size)) := by
  unfold Minibatch.next fetchMinibatchData at h
  split at h
  · cases h
    exact ⟨rfl, rfl, Or.inl rfl⟩
  · rename_i pxs wts augs reqs idx2 hloop
    split at h
    · cases h
      exact ⟨rfl, rfl, Or.inl rfl⟩
    · rename_i parr hparr
      split at h
      · rename_i e1 hwarr
        cases h
        refine ⟨rfl, rfl, Or.inr ⟨npArray_error_eq _ _ hwarr, parr, rfl, ?_⟩⟩
        have hlen :=
          (fetchLoop_ok_lengths m rng m.batch_size idx pxs wts augs reqs _ hloop).1
        have hhd := npArray_ok_headlen pxs parr hparr
        rw [hhd, hlen]
      · cases h

/-- Witness for C2's amended theorem at the ragged run. -/
theorem minibatch_error_preserves_weights_witness :
    ({ raggedM with pixels := some ⟨[2, 1], [5, 5]⟩ } : Minibatch).weights =
      raggedM.weights ∧
    ({ raggedM with pixels := some ⟨[2, 1], [5, 5]⟩ } : Minibatch).augmentations =
      raggedM.augmentations := by
  have h := minibatch_error_preserves_weights raggedM quarterRng 0
    inhomogeneousError { raggedM with pixels := some ⟨[2, 1], [5, 5]⟩ } 4
    ragged_run
  exact ⟨h.1, h.2.1⟩

/-- C3: with augmentation on and ordered ranges, the i-th request of an
advance carries a shear angle drawn from the shear range with the draw at
position idx+2i and a rotation angle drawn from the rotation range with the
draw at position idx+2i+1 (fresh draws per example, shear first); both angles
lie within their ranges, and degenerate (0,0) ranges give exactly 0. -/
theorem minibatch_augmented_angles (m : Minibatch) (rng : Nat → ℚ) (idx : Nat)
    (haug : m.augment = true)
    (hrr : m.rotation_range.1 ≤ m.rotation_range.2)
    (hsr : m.shear_range.1 ≤ m.shear_range.2)
    (hrng : ∀ k, 0 ≤ rng k ∧ rng k ≤ 1) :
    ∀ (i : Nat) (req : TplRequest), (fetchRequests m rng idx)[i]? = some req →
      req.shear_angle =
        some (uniform m.shear_range.1 m.shear_range.2 (rng (idx + 2 * i))) ∧
      req.rotation_angle =
        some (uniform m.rotation_range.1 m.rotation_range.2
          (rng (idx + 2 * i + 1))) ∧
      (∃ s, req.shear_angle = some s ∧
        m.shear_range.1 ≤ s ∧ s ≤ m.shear_range.2) ∧
      (∃ r, req.rotation_angle = some r ∧
        m.rotation_range.1 ≤ r ∧ r ≤ m.rotation_range.2) ∧
      (m.shear_range = (0, 0) → req.shear_angle = some 0) ∧
      (m.rotation_range = (0, 0) → req.rotation_angle = some 0) := by
  intro i req hi
  have hreq := loopRequests_getElem m rng haug m.batch_size idx i req hi
  subst hreq
  have hpick : (pickRequest m rng (idx + 2 * i)).1 =
      ⟨m.size_zxy, m.channels, m.padding_zxy, m.equalized, m.labels,
       some (uniform m.rotation_range.1 m.rotation_range.2 (rng (idx + 2 * i + 1))),
       some (uniform m.shear_range.1 m.shear_range.2 (rng (idx + 2 * i)))⟩ := by
    simp [pickRequest, haug, get_random_rotation, get_random_shear]
  rw [hpick]
  refine ⟨rfl, rfl,
    ⟨_, rfl, (uniform_mem _ _ _ hsr (hrng _).1 (hrng _).2).1,
       (uniform_mem _ _ _ hsr (hrng _).1 (hrng _).2).2⟩,
    ⟨_, rfl, (uniform_mem _ _ _ hrr (hrng _).1 (hrng _).2).1,
       (uniform_mem _ _ _ hrr (hrng _).1 (hrng _).2).2⟩, ?_, ?_⟩
  · intro h0
    show some (uniform m.shear_range.1 m.shear_range.2 (rng (idx + 2 * i))) =
      some 0
    rw [show uniform m.shear_range.1 m.shear_range.2 (rng (idx + 2 * i)) = 0 by
      rw [h0]; exact uniform_degenerate 0 _]
  · intro h0
    show some (uniform m.rotation_range.1 m.rotation_range.2
        (rng (idx + 2 * i + 1))) = some 0
    rw [show uniform m.rotation_range.1 m.rotation_range.2
        (rng (idx + 2 * i + 1)) = 0 by rw [h0]; exact uniform_degenerate 0 _]

/-- Witness for C3: degenerate (0,0) ranges yield exactly-zero angles. -/
theorem minibatch_augmented_angles_witness :
    wReq3.shear_angle = some 0 ∧ wReq3.rotation_angle = some 0 := by
  have h := minibatch_augmented_angles wM3 wRng 0 rfl (le_refl 0) (le_refl 0)
    (fun k => ⟨by norm_num [wRng], by norm_num [wRng]⟩) 0 wReq3 rfl
  exact ⟨h.2.2.2.2.1 rfl, h.2.2.2.2.2 rfl⟩

/-- C4: with augmentation off, every request an advance sends to the dataset
carries the sampler's geometry, channels, labels, padding and equalized flag
and no rotation or shear angle. -/
theorem minibatch_unaugmented_requests (m : Minibatch) (rng : Nat → ℚ)
    (idx : Nat) (haug : m.augment = false) :
    ∀ req ∈ fetchRequests m rng idx,
      req.rotation_angle = none ∧ req.shear_angle = none ∧
      req.size_zxy = m.size_zxy ∧ req.channels = m.channels ∧
      req.labels = m.labels ∧ req.pixel_padding = m.padding_zxy ∧
      req.equalized = m.equalized := by
  intro req hreq
  obtain ⟨j, hj⟩ := loopRequests_mem m rng m.batch_size idx req hreq
  subst hj
  simp [pickRequest, haug]

/-- Witness for C4 at a concrete unaugmented sampler. -/
theorem minibatch_unaugmented_requests_witness :
    wReq.rotation_angle = none ∧ wReq.shear_angle = none ∧
    wReq.size_zxy = wM.size_zxy ∧ wReq.channels = wM.channels ∧
    wReq.labels = wM.labels ∧ wReq.pixel_padding = wM.padding_zxy ∧
    wReq.equalized = wM.equalized :=
  minibatch_unaugmented_requests wM wRng 0 rfl wReq (by decide)

/-- C5: a successful advance makes exactly batch_size requests, index i of
the pixel, weight and augmentation sequences all come from the i-th fetched
example, and the returned sampler is the input sampler with only the three
batch fields replaced. -/
theorem minibatch_advance_lockstep (m : Minibatch) (rng : Nat → ℚ) (idx : Nat)
    (m1 : Minibatch) (idx1 : Nat)
    (h : Minibatch.next m rng idx = .ok (m1, idx1)) :
    ∃ pxs wts augs reqs,
      fetchLoop m rng m.batch_size idx = .ok (pxs, wts, augs, reqs, idx1) ∧
      reqs.length = m.batch_size ∧
      fetchRequests m rng idx = reqs ∧
      (∀ (i : Nat) (req : TplRequest), reqs[i]? = some req →
        ∃ t, m.dataset.pick_random_training_template req = .ok t ∧
          pxs[i]? = some t.pixels ∧ wts[i]? = some t.weights ∧
          augs[i]? = some t.augmentation) ∧
      m1.augmentations = some augs ∧
      (∃ parr warr, npArray pxs = .ok parr ∧ npArray wts = .ok warr ∧
        m1 = { m with
                pixels := some parr
                weights := some warr
                augmentations := some augs }) := by
  unfold Minibatch.next fetchMinibatchData at h
  split at h
  · cases h
  · rename_i pxs wts augs reqs idx2 hloop
    split at h
    · cases h
    · rename_i parr hparr
      split at h
      · cases h
      · rename_i warr hwarr
        cases h
        refine ⟨pxs, wts, augs, reqs, hloop, ?_, ?_, ?_, rfl, parr, warr,
          hparr, hwarr, rfl⟩
        · exact (fetchLoop_ok_lengths m rng m.batch_size idx pxs wts augs
            reqs _ hloop).2.2.2
        · unfold fetchRequests
          rw [hloop]
          rfl
        · exact fetchLoop_lockstep m rng m.batch_size idx pxs wts augs
            reqs _ hloop

/-- Witness for C5: the concrete batch-size-1 run makes one request. -/
theorem minibatch_advance_lockstep_witness :
    (fetchRequests wM wRng 0).length = wM.batch_size := by
  obtain ⟨pxs, wts, augs, reqs, hloop, hlen, hreqs, hstep⟩ :=
    minibatch_advance_lockstep wM wRng 0 wMres 0 rfl
  rw [hreqs, hlen]

/-- C6: construction reads the channel and label enumerations from the
dataset into the new state and then behaves exactly as one advance on that
fresh state, whose batch fields start out empty. -/
theorem minibatch_init_is_one_advance (ds : Dataset) (bs : Nat)
    (sz pad : Nat × Nat × Nat) (aug : Bool) (rr sr : ℚ × ℚ) (eq : Bool)
    (rng : Nat → ℚ) (idx : Nat) :
    Minibatch.init ds bs sz pad aug rr sr eq rng idx =
      Minibatch.next (initState ds bs sz pad aug rr sr eq) rng idx ∧
    (initState ds bs sz pad aug rr sr eq).channels = ds.get_channels ∧
    (initState ds bs sz pad aug rr sr eq).labels = ds.get_label_values ∧
    (initState ds bs sz pad aug rr sr eq).pixels = none ∧
    (initState ds bs sz pad aug rr sr eq).weights = none ∧
    (initState ds bs sz pad aug rr sr eq).batch_size = bs :=
  ⟨rfl, rfl, rfl, rfl, rfl, rfl⟩

/-- C7: every error an advance surfaces is either verbatim a dataset error
raised at one of the requests made, or the stacking error; and when the
dataset fails on the first request, the advance surfaces exactly that error
with the object untouched. -/
theorem minibatch_error_propagation (m : Minibatch) (rng : Nat → ℚ)
    (idx : Nat) :
    (∀ e m1 idx1, Minibatch.next m rng idx = .error (e, m1, idx1) →
      (∃ req ∈ fetchRequests m rng idx,
        m.dataset.pick_random_training_template req = .error e) ∨
      e = inhomogeneousError) ∧
    (∀ e, 0 < m.batch_size →
      m.dataset.pick_random_training_template (pickRequest m rng idx).1 =
        .error e →
      Minibatch.next m rng idx = .error (e, m, (pickRequest m rng idx).2)) := by
  constructor
  · intro e m1 idx1 h
    unfold Minibatch.next fetchMinibatchData at h
    split at h
    · rename_i e2 reqs idx2 hloop
      cases h
      obtain ⟨req, hmem, herr⟩ :=
        fetchLoop_error_spec m rng m.batch_size idx _ _ _ hloop
      left
      refine ⟨req, ?_, herr⟩
      unfold fetchRequests
      rw [hloop]
      exact hmem
    · rename_i pxs wts augs reqs idx2 hloop
      split at h
      · rename_i e2 hparr
        cases h
        right
        exact npArray_error_eq _ _ hparr
      · rename_i parr hparr
        split at h
        · rename_i e2 hwarr
          cases h
          right
          exact npArray_error_eq _ _ hwarr
        · cases h
  · intro e hbs herr
    obtain ⟨n, hn⟩ : ∃ n, m.batch_size = n + 1 := ⟨m.batch_size - 1, by omega⟩
    show fetchMinibatchData m rng idx = _
    unfold fetchMinibatchData
    rw [hn, fetchLoop_succ, herr]

/-- Witness for C7: a dataset that cannot find a valid location; its error
message surfaces verbatim from the advance. -/
theorem minibatch_error_propagation_witness :
    Minibatch.next errM wRng 0 = .error ("no valid location found", errM, 0) :=
  (minibatch_error_propagation errM wRng 0).2 "no valid location found"
    Nat.zero_lt_one rfl

/-- C8: the equalized flag is forwarded unchanged on every request, in both
the augmented and the unaugmented path, and construction stores the given
flag unchanged. -/
theorem minibatch_forwards_equalized (m : Minibatch) (rng : Nat → ℚ)
    (idx : Nat) :
    (∀ req ∈ fetchRequests m rng idx, req.equalized = m.equalized) ∧
    (∀ (ds : Dataset) (bs : Nat) (sz pad : Nat × Nat × Nat) (aug : Bool)
      (rr sr : ℚ × ℚ) (eq : Bool),
      (initState ds bs sz pad aug rr sr eq).equalized = eq) := by
  constructor
  · intro req hreq
    obtain ⟨j, hj⟩ := loopRequests_mem m rng m.batch_size idx req hreq
    subst hj
    by_cases haug : m.augment <;> simp [pickRequest, haug]
  · intro ds bs sz pad aug rr sr eq
    rfl

/-- Witness for C8 at a concrete sampler. -/
theorem minibatch_forwards_equalized_witness : wReq.equalized = wM.equalized :=
  (minibatch_forwards_equalized wM wRng 0).1 wReq (by decide)

/-- C9: an advance is a function of the request-to-example mapping and the
draw stream: replacing the dataset by one that answers every request of the
run identically yields the identical batch (and identical error), state
changed only in the dataset reference. -/
theorem minibatch_advance_deterministic (m : Minibatch) (d2 : Dataset)
    (rng : Nat → ℚ) (idx : Nat)
    (h : ∀ req ∈ fetchRequests m rng idx,
      d2.pick_random_training_template req =
        m.dataset.pick_random_training_template req) :
    (∀ m1 idx1, Minibatch.next m rng idx = .ok (m1, idx1) →
      Minibatch.next { m with dataset := d2 } rng idx =
        .ok ({ m1 with dataset := d2 }, idx1) ∧
      batchObs { m1 with dataset := d2 } = batchObs m1) ∧
    (∀ e m1 idx1, Minibatch.next m rng idx = .error (e, m1, idx1) →
      Minibatch.next { m with dataset := d2 } rng idx =
        .error (e, { m1 with dataset := d2 }, idx1) ∧
      batchObs { m1 with dataset := d2 } = batchObs m1) := by
  have hs := fetch_swap m d2 rng idx h
  constructor
  · intro m1 idx1 hok
    refine ⟨?_, rfl⟩
    unfold Minibatch.next at hok
    show fetchMinibatchData { m with dataset := d2 } rng idx = _
    rw [hs, hok]
  · intro e m1 idx1 herr
    refine ⟨?_, rfl⟩
    unfold Minibatch.next at herr
    show fetchMinibatchData { m with dataset := d2 } rng idx = _
    rw [hs, herr]

/-- Witness for C9: swapping in a dataset that agrees on the one request of
the run reproduces the identical batch. -/
theorem minibatch_advance_deterministic_witness :
    Minibatch.next { wM with dataset := wDataset2 } wRng 0 =
      .ok ({ wMres with dataset := wDataset2 }, 0) := by
  have hagree : ∀ req ∈ fetchRequests wM wRng 0,
      wDataset2.pick_random_training_template req =
        wM.dataset.pick_random_training_template req := by
    intro req hreq
    have he : req = wReq := by
      have hl : fetchRequests wM wRng 0 = [wReq] := rfl
      rw [hl] at hreq
      simpa using hreq
    subst he
    rfl
  exact ((minibatch_advance_deterministic wM wDataset2 wRng 0 hagree).1
    wMres 0 rfl).1

/-- C10: with batch_size 0, construction and advance succeed, make no
request at all, and produce empty pixel and weight arrays (shape (0,)) and
an empty augmentation sequence. -/
theorem minibatch_zero_batch (m : Minibatch) (rng : Nat → ℚ) (idx : Nat)
    (h : m.batch_size = 0) :
    Minibatch.next m rng idx =
      .ok ({ m with
              pixels := some ⟨[0], []⟩
              weights := some ⟨[0], []⟩
              augmentations := some [] }, idx) ∧
    fetchRequests m rng idx = [] ∧
    (∀ (ds : Dataset) (sz pad : Nat × Nat × Nat) (aug : Bool) (rr sr : ℚ × ℚ)
      (eq : Bool),
      Minibatch.init ds 0 sz pad aug rr sr eq rng idx =
        .ok ({ initState ds 0 sz pad aug rr sr eq with
                pixels := some ⟨[0], []⟩
                weights := some ⟨[0], []⟩
                augmentations := some [] }, idx)) := by
  refine ⟨?_, ?_, ?_⟩
  · show fetchMinibatchData m rng idx = _
    unfold fetchMinibatchData
    rw [h, fetchLoop_zero]
    rfl
  · unfold fetchRequests
    rw [h, fetchLoop_zero]
    rfl
  · intro ds sz pad aug rr sr eq
    rfl

/-- Witness for C10 at a concrete sampler with batch_size 0. -/
theorem minibatch_zero_batch_witness :
    Minibatch.next zM wRng 0 =
      .ok ({ zM with
              pixels := some ⟨[0], []⟩
              weights := some ⟨[0], []⟩
              augmentations := some [] }, 0) :=
  (minibatch_zero_batch zM wRng 0 rfl).1
